import Mathlib

/-!
Shallow embedding of `md2xlsx.py` (Cilyan/md2xlsx): a Markdown-to-Excel
converter built on the mistune parser and openpyxl.  The embedding covers
the accumulator/collector protocol (`InlineCollector`, `BlockCollector`,
`Collector`), the style resolver (`ExcelCollectorRenderer.create_style`),
the row renderer (`ExcelCollectorRenderer.render`), and the link registry
(`ExcelRenderer.link` / `ExcelRenderer.terminate`).

Python mutable lists become Lean lists; Python `None` becomes `Option`;
the dynamic type dispatch in `Collector.__iadd__` becomes a closed
inductive `Value`; the `RuntimeError` raised on an unrecognized type
becomes `Except.error`.
-/

/-- Source `Color(theme=..)` / `Color(rgb=..)` from openpyxl, as used by the source. -/
inductive XColor where
  | theme (n : Nat)
  | rgb (v : String)
deriving DecidableEq

/-- The openpyxl `Font` fields that `md2xlsx.py` sets. -/
structure XFont where
  name : String
  sz : Nat
  family : Nat
  b : Bool
  i : Bool
  color : XColor
  scheme : Option String := none
  u : Option String := none
  strike : Option Bool := none
deriving DecidableEq

/-- The openpyxl `Alignment` field that `md2xlsx.py` touches (`indent`, default 0). -/
structure XAlignment where
  indent : Nat := 0
deriving DecidableEq

/-- The openpyxl `PatternFill` fields that `md2xlsx.py` sets. -/
structure XPatternFill where
  fill_kind : String
  start_color : String
  end_color : String
deriving DecidableEq

/-- Source `FT_HEADER1` (src line 35). -/
def FT_HEADER1 : XFont :=
  { name := "Calibri", sz := 26, family := 2, b := false, i := false,
    color := XColor.theme 1, scheme := some ("minor") }

/-- Source `FT_HEADER2` (src line 36). -/
def FT_HEADER2 : XFont :=
  { name := "Calibri", sz := 22, family := 2, b := false, i := false,
    color := XColor.theme 1, scheme := some ("minor") }

/-- Source `FT_HEADER3` (src line 37). -/
def FT_HEADER3 : XFont :=
  { name := "Calibri", sz := 18, family := 2, b := false, i := false,
    color := XColor.theme 1, scheme := some ("minor") }

/-- Source `FT_HEADER4` (src line 38). -/
def FT_HEADER4 : XFont :=
  { name := "Calibri", sz := 16, family := 2, b := false, i := false,
    color := XColor.theme 1, scheme := some ("minor") }

/-- Source `FT_HEADER5` (src line 39). -/
def FT_HEADER5 : XFont :=
  { name := "Calibri", sz := 14, family := 2, b := false, i := false,
    color := XColor.theme 1, scheme := some ("minor") }

/-- Source `FT_HEADER6` (src line 40). -/
def FT_HEADER6 : XFont :=
  { name := "Calibri", sz := 12, family := 2, b := false, i := false,
    color := XColor.theme 1, scheme := some ("minor") }

/-- Source `FILL_QUOTE` (src line 42). -/
def FILL_QUOTE : XPatternFill :=
  { fill_kind := "solid", start_color := "FFA09BBB", end_color := "FFA09BBB" }

/-- Source `FILL_HRULE` (src line 43).  Defined in the source but never referenced
    by any other part of the program. -/
def FILL_HRULE : XPatternFill :=
  { fill_kind := "solid", start_color := "FF000000", end_color := "FF000000" }

/-- Source `InlineElement = namedtuple("InlineElement", ["text", "markers"])` (src
    line 179).  The Python marker set becomes a duplicate-free list. -/
structure InlineElement where
  text : String
  markers : List String
deriving DecidableEq

/-- Source `InlineCollector` (src lines 181-206): an ordered sequence of inline
    elements. -/
structure InlineCollector where
  elements : List InlineElement
deriving DecidableEq

/-- Source `InlineCollector.append` (src lines 186-192): append a new element with
    an empty marker set. -/
def InlineCollector.append (a : InlineCollector) (text : String) : InlineCollector :=
  ⟨a.elements ++ [⟨text, []⟩]⟩

/-- Source `InlineCollector(text)` with non-None `text` (src lines 182-185). -/
def InlineCollector.ofText (text : String) : InlineCollector :=
  ⟨[⟨text, []⟩]⟩

/-- Source `InlineCollector.__iadd__` (src lines 193-195): list concatenation. -/
def InlineCollector.iadd (a other : InlineCollector) : InlineCollector :=
  ⟨a.elements ++ other.elements⟩

/-- Source `markers.add(marker)` on a Python set: add the marker if absent. -/
def addMarker (markers : List String) (marker : String) : List String :=
  if marker ∈ markers then markers else markers ++ [marker]

/-- Source `InlineCollector.apply_marker` (src lines 198-204): add `marker` to the
    marker set of every contained element. -/
def InlineCollector.apply_marker (a : InlineCollector) (marker : String) : InlineCollector :=
  ⟨a.elements.map (fun e => ⟨e.text, addMarker e.markers marker⟩)⟩

/-- Source `BlockElement = namedtuple("BlockElement", ["content", "styles"])` (src
    line 147). -/
structure BlockElement where
  content : InlineCollector
  styles : List String
deriving DecidableEq

/-- Source `BlockCollector` (src lines 149-177): an ordered sequence of block
    elements. -/
structure BlockCollector where
  elements : List BlockElement
deriving DecidableEq

/-- Source `BlockCollector()` with no content (src lines 153-156). -/
def BlockCollector.empty : BlockCollector := ⟨[]⟩

/-- Source `BlockCollector.append` (src lines 157-162): append a new block holding
    `content`, with a fresh empty style list. -/
def BlockCollector.append (a : BlockCollector) (content : InlineCollector) : BlockCollector :=
  ⟨a.elements ++ [⟨content, []⟩]⟩

/-- Source `BlockCollector(content)` with non-None `content` (src lines 153-156):
    the constructor calls `append(content)` on the empty collector. -/
def BlockCollector.ofContent (content : InlineCollector) : BlockCollector :=
  BlockCollector.empty.append content

/-- Source `BlockCollector.__iadd__` (src lines 163-165): list concatenation. -/
def BlockCollector.iadd (a other : BlockCollector) : BlockCollector :=
  ⟨a.elements ++ other.elements⟩

/-- Source `BlockCollector.nest` (src lines 168-175): `styles.insert(0, style)` on
    every contained element, i.e. prepend `style` to each style list. -/
def BlockCollector.nest (a : BlockCollector) (style : String) : BlockCollector :=
  ⟨a.elements.map (fun e => ⟨e.content, style :: e.styles⟩)⟩

/-- Source `Collector` state (src lines 226-229): at most one pending
    `InlineCollector` and at most one pending `BlockCollector`. -/
structure Collector where
  inline : Option InlineCollector
  block : Option BlockCollector
deriving DecidableEq

/-- Source `Collector(renderer)` fresh state (src lines 226-229). -/
def Collector.empty : Collector := ⟨none, none⟩

/-- Source `Collector._add_block` (src lines 266-276): if no block is pending, the
    pending inline (when present) is promoted into a single-element
    `BlockCollector` and cleared; then the incoming block collector is
    merged (`+=`) into the pending block. -/
def Collector._add_block (c : Collector) (block_collector : BlockCollector) : Collector :=
  match c.block with
  | some b => { c with block := some (b.iadd block_collector) }
  | none =>
    match c.inline with
    | some i =>
        { inline := none, block := some ((BlockCollector.ofContent i).iadd block_collector) }
    | none =>
        { c with block := some (BlockCollector.empty.iadd block_collector) }

/-- Source `Collector._add_inline` (src lines 278-286): first inline becomes the
    pending inline, later ones are merged into it. -/
def Collector._add_inline (c : Collector) (inline_collector : InlineCollector) : Collector :=
  match c.inline with
  | none => { c with inline := some inline_collector }
  | some i => { c with inline := some (i.iadd inline_collector) }

/-- The closed set of values the parser can send to `Collector.__iadd__`
    (src lines 231-264): a `BlockCollector`, an `InlineCollector`, another
    `Collector`, `None`, or an unrecognized object (carrying its type
    name). -/
inductive Value where
  | blockV (b : BlockCollector)
  | inlineV (i : InlineCollector)
  | collV (other : Collector)
  | noneV
  | otherV (tyName : String)
deriving DecidableEq

/-- Source `Collector.__iadd__` (src lines 231-264).  The nested `self += ...`
    calls in the `Collector` branch are unfolded to the concrete handler
    they dispatch to (`_add_block` for a `BlockCollector`, `_add_inline`
    for an `InlineCollector`, no-op for `None`).  The `RuntimeError` raised
    on an unrecognized type becomes `Except.error`. -/
def Collector.iadd (c : Collector) (other : Value) : Except String Collector :=
  match other with
  | Value.blockV b => Except.ok (c._add_block b)
  | Value.inlineV i => Except.ok (c._add_inline i)
  | Value.collV o =>
      match o.block with
      | some b =>
          let c1 := c._add_block b
          match o.inline with
          | some i => Except.ok (c1._add_block (BlockCollector.ofContent i))
          | none => Except.ok c1
      | none =>
          match o.inline with
          | some i => Except.ok (c._add_inline i)
          | none => Except.ok c
  | Value.noneV => Except.ok c
  | Value.otherV tyName =>
      Except.error ("Unexpected type " ++ tyName ++ " appended to Collector")

/-- Source `ExcelCollectorRenderer.FONTS` (src lines 53-60): heading tag to font. -/
def FONTS : String → Option XFont := fun s =>
  List.lookup s
    [("h1", FT_HEADER1), ("h2", FT_HEADER2), ("h3", FT_HEADER3),
     ("h4", FT_HEADER4), ("h5", FT_HEADER5), ("h6", FT_HEADER6)]

/-- One iteration of the `for style in styles` loop of
    `ExcelCollectorRenderer.create_style` (src lines 98-119), acting on the
    `(font, alignment, fill)` state. -/
def styleStep (st : Option XFont × Option XAlignment × Option XPatternFill)
    (style : String) : Option XFont × Option XAlignment × Option XPatternFill :=
  match FONTS style with
  | some f => (some f, st.2.1, st.2.2)
  | none =>
    if style = "list" ∨ style = "link" then
      (st.1, some ⟨(st.2.1.getD ⟨0⟩).indent + 2⟩, st.2.2)
    else if style = "quote" then
      (st.1, some ⟨(st.2.1.getD ⟨0⟩).indent + 2⟩, some (st.2.2.getD FILL_QUOTE))
    else
      st

/-- Source `ExcelCollectorRenderer.create_style` (src lines 98-119): fold the loop
    body over the style list starting from `(None, None, None)`. -/
def create_style (styles : List String) :
    Option XFont × Option XAlignment × Option XPatternFill :=
  styles.foldl styleStep (none, none, none)

/-- One cell write performed by `ExcelCollectorRenderer.render`:
    `self.ws.cell(row=row, column=self.col)` filled from `block`. -/
structure CellWrite where
  row : Nat
  col : Nat
  block : BlockElement
deriving DecidableEq

/-- Source `ExcelCollectorRenderer.render` (src lines 62-74): `zip(self.row,
    block_collector)` with `self.row = itertools.count(row)` pairs the
    blocks with consecutive row numbers at the fixed column. -/
def ExcelCollectorRenderer.render : List BlockElement → Nat → Nat → List CellWrite
  | [], _, _ => []
  | b :: bs, r, c => ⟨r, c, b⟩ :: ExcelCollectorRenderer.render bs (r + 1) c

/-- Source `ExcelRenderer._get_block` (src lines 361-365): promote a pending
    inline to a fresh single-element block collector, else return the
    pending block (possibly `None`). -/
def ExcelRenderer._get_block (bucket : Collector) : Option BlockCollector :=
  match bucket.inline with
  | some i => some (BlockCollector.ofContent i)
  | none => bucket.block

/-- Source `ExcelRenderer.paragraph` (src lines 395-397):
    `self._get_block(text).nest("paragraph")`.  When `_get_block` yields no
    collector the Python code would fault on `None`; the embedding keeps
    that case out with `Option.map`. -/
def ExcelRenderer.paragraph (text : Collector) : Option BlockCollector :=
  (ExcelRenderer._get_block text).map (fun b => b.nest ("paragraph"))

/-- Source `ExcelRenderer.hrule` (src lines 383-385):
    `BlockCollector(InlineCollector("")).nest("hrule")`. -/
def ExcelRenderer.hrule : BlockCollector :=
  (BlockCollector.ofContent (InlineCollector.ofText (""))).nest ("hrule")

/-- Source `IndexedList.add` (openpyxl): append the value unless already present.
    `self.links` of `ExcelRenderer` is such a list of target strings. -/
def IndexedList.add (ls : List String) (v : String) : List String :=
  if v ∈ ls then ls else ls ++ [v]

/-- The registry-updating core of `ExcelRenderer.link` (src lines 439-440):
    `self.links.add(link); idx = self.links.index(link) + 1`.  Returns the
    updated registry and the 1-based index reported for `target`. -/
def ExcelRenderer.linkRegister (links : List String) (target : String) :
    List String × Nat :=
  let links2 := IndexedList.add links target
  (links2, links2.indexOf target + 1)

/-- The body of the `for idx, link in enumerate(self.links, start=1)` loop
    of `ExcelRenderer.terminate` (src lines 464-468): build the content
    `InlineCollector("[idx] ")` + `InlineCollector(link).apply_marker("l")`,
    wrap it in a `BlockCollector` nested `"link"`, and `+=` it into the
    collector. -/
def terminateStep (coll : Collector) (p : Nat × String) : Collector :=
  let content := (InlineCollector.ofText ("[" ++ toString p.1 ++ "] ")).iadd
    ((InlineCollector.ofText p.2).apply_marker ("l"))
  coll._add_block ((BlockCollector.ofContent content).nest ("link"))

/-- Source `ExcelRenderer.terminate` (src lines 454-471): build a fresh collector;
    when links are registered, `+=` one blank block, then `+=` one block
    per link in assignment order, then reset the registry.  Returns the
    collector and the registry state after the call. -/
def ExcelRenderer.terminate (links : List String) : Collector × List String :=
  if 0 < links.length then
    ((List.enumFrom 1 links).foldl terminateStep
      (Collector.empty._add_block
        (BlockCollector.ofContent (InlineCollector.ofText ("")))), [])
  else
    (Collector.empty, links)

/-- The index of `t` in `ls ++ [t]` is `ls.length` when `t` does not occur
    in `ls` (the `IndexedList` fresh-insertion case). -/
lemma indexOf_append_singleton_self (t : String) :
    ∀ ls : List String, t ∉ ls → (ls ++ [t]).indexOf t = ls.length := by
  intro ls
  induction ls with
  | nil => intro _; simp [List.indexOf_cons_self]
  | cons a as ih =>
      intro h
      have ha : t ≠ a := fun hta => h (hta ▸ List.mem_cons_self a as)
      have has : t ∉ as := fun hmem => h (List.mem_cons_of_mem a hmem)
      simp only [List.cons_append, List.indexOf_cons_ne _ (Ne.symm ha), ih has,
        List.length_cons, Nat.succ_eq_add_one]

/-- C1: Appending a `BlockCollector` to a `Collector` with no pending block
    but a pending inline first promotes the inline into a single-element
    block collector (clearing the pending inline) and merges the appended
    blocks after it; with a pending block the appended blocks are merged
    directly into it, in order. -/
theorem C1_add_block_promotes_pending_inline :
    ∀ (i : InlineCollector) (other : BlockCollector),
      ((Collector.mk (some i) none)._add_block other
          = Collector.mk none (some ⟨BlockElement.mk i [] :: other.elements⟩))
        ∧ ∀ (inl : Option InlineCollector) (b : BlockCollector),
            (Collector.mk inl (some b))._add_block other
              = Collector.mk inl (some ⟨b.elements ++ other.elements⟩) := by
  intro i other
  constructor
  · simp [Collector._add_block, BlockCollector.ofContent, BlockCollector.empty,
      BlockCollector.append, BlockCollector.iadd]
  · intro inl b
    simp [Collector._add_block, BlockCollector.iadd]

/-- C4: `nest` prepends the style tag to every contained block element's
    style list, so `nest B` followed by `nest A` leaves every style list
    beginning `[A, B, ...]`, for every collector state. -/
theorem C4_nest_prepends :
    ∀ (bc : BlockCollector) (s A B : String),
      ((bc.nest s).elements.map BlockElement.styles
          = bc.elements.map (fun e => s :: e.styles))
        ∧ ((bc.nest B).nest A).elements.map BlockElement.styles
          = bc.elements.map (fun e => A :: B :: e.styles) := by
  intro bc s A B
  constructor <;> simp [BlockCollector.nest, List.map_map, Function.comp_def]

/-- C5: `Collector.__iadd__` silently ignores `None` (state unchanged) and
    raises on any unrecognized value. -/
theorem C5_none_ignored_unknown_rejected :
    ∀ (c : Collector) (tyName : String),
      (c.iadd Value.noneV = Except.ok c)
        ∧ c.iadd (Value.otherV tyName)
          = Except.error ("Unexpected type " ++ tyName ++ " appended to Collector") := by
  intro c tyName
  exact ⟨rfl, rfl⟩

/-- C8: rendering `N` blocks starting at row `r`, column `c`, writes exactly
    `N` cells at the consecutive rows `r, r+1, ..., r+N-1`, all in column
    `c`, one block per row in block order. -/
theorem C8_render_consecutive_rows :
    ∀ (blocks : List BlockElement) (r c : Nat),
      ((ExcelCollectorRenderer.render blocks r c).length = blocks.length)
        ∧ ((ExcelCollectorRenderer.render blocks r c).map CellWrite.row
            = List.range' r blocks.length)
        ∧ ((ExcelCollectorRenderer.render blocks r c).map CellWrite.col
            = List.replicate blocks.length c)
        ∧ (ExcelCollectorRenderer.render blocks r c).map CellWrite.block = blocks := by
  intro blocks
  induction blocks with
  | nil => intro r c; simp [ExcelCollectorRenderer.render]
  | cons b bs ih =>
      intro r c
      obtain ⟨h1, h2, h3, h4⟩ := ih (r + 1) c
      refine ⟨?_, ?_, ?_, ?_⟩ <;>
        simp [ExcelCollectorRenderer.render, h1, h2, h3, h4, List.range'_succ,
          List.replicate_succ]

/-- C6: the hrule hook emits a single empty-content block styled
    `["hrule"]`, but `create_style` ignores the `"hrule"` tag entirely: it
    resolves to no font, no alignment and, contrary to the spec, no fill
    (`FILL_HRULE` is defined in the source but never applied). -/
theorem C6_hrule_resolves_to_nothing :
    (ExcelRenderer.hrule.elements.map BlockElement.styles = [["hrule"]])
      ∧ create_style ["hrule"]
        = ((none, none, none) :
            Option XFont × Option XAlignment × Option XPatternFill) := by
  constructor
  · rfl
  · rfl

/-- C7 counterexample: on the plain paragraph content `"Hello "`, the
    paragraph hook produces a block element whose style list is
    `["paragraph"]`, not the empty list the claim states. -/
theorem C7_paragraph_styles_counterexample :
    ((ExcelRenderer.paragraph
        (Collector.mk (some (InlineCollector.ofText ("Hello "))) none)).map
          (fun b => b.elements.map BlockElement.styles) = some [["paragraph"]])
      ∧ (["paragraph"] : List String) ≠ [] := by
  constructor
  · rfl
  · decide

/-- C7 (amended): for every collector holding pending inline content, the
    paragraph hook produces a single block element carrying that content
    with style list exactly `["paragraph"]`; this tag is ignored by the
    style resolver, so the resolved block style is empty (no font, no
    alignment, no fill). -/
theorem C7_paragraph_styles :
    ∀ (c : Collector) (i : InlineCollector),
      c.inline = some i →
        (ExcelRenderer.paragraph c = some ⟨[⟨i, ["paragraph"]⟩]⟩)
          ∧ create_style ["paragraph"]
            = ((none, none, none) :
                Option XFont × Option XAlignment × Option XPatternFill) := by
  intro c i h
  constructor
  · simp [ExcelRenderer.paragraph, ExcelRenderer._get_block, h, BlockCollector.nest,
      BlockCollector.ofContent, BlockCollector.empty, BlockCollector.append]
  · rfl

/-- C7 witness: the amended statement at the concrete pending inline
    `"Hello "`. -/
theorem C7_paragraph_styles_witness :
    (ExcelRenderer.paragraph (Collector.mk (some (InlineCollector.ofText ("Hello "))) none)
        = some ⟨[⟨InlineCollector.ofText ("Hello "), ["paragraph"]⟩]⟩)
      ∧ create_style ["paragraph"]
        = ((none, none, none) :
            Option XFont × Option XAlignment × Option XPatternFill) :=
  C7_paragraph_styles (Collector.mk (some (InlineCollector.ofText ("Hello "))) none)
    (InlineCollector.ofText ("Hello ")) rfl

/-- C3: link registration returns the previously assigned 1-based index for
    an already-seen target (leaving the registry unchanged) and the next
    sequential index `length + 1` for a fresh target (appending it); in
    particular registering `"http://x"`, `"http://y"`, `"http://x"` yields
    indices 1, 2, 1. -/
theorem C3_link_indices_stable :
    (∀ (ls : List String) (t : String),
        ExcelRenderer.linkRegister ls t
          = if t ∈ ls then (ls, ls.indexOf t + 1) else (ls ++ [t], ls.length + 1))
      ∧ (ExcelRenderer.linkRegister [] ("http://x") = (["http://x"], 1))
      ∧ (ExcelRenderer.linkRegister ["http://x"] ("http://y")
          = (["http://x", "http://y"], 2))
      ∧ ExcelRenderer.linkRegister ["http://x", "http://y"] ("http://x")
          = (["http://x", "http://y"], 1) := by
  refine ⟨?_, by decide, by decide, by decide⟩
  intro ls t
  by_cases h : t ∈ ls
  · simp [ExcelRenderer.linkRegister, IndexedList.add, h]
  · simp [ExcelRenderer.linkRegister, IndexedList.add, h,
      indexOf_append_singleton_self t ls h]

/-- The block element `terminate` builds for the link `p.2` carrying the
    1-based index `p.1`. -/
def linkBlockElem (p : Nat × String) : BlockElement :=
  ⟨⟨[⟨"[" ++ toString p.1 ++ "] ", []⟩, ⟨p.2, ["l"]⟩]⟩, ["link"]⟩

/-- Folding `terminateStep` over indexed links appends one `linkBlockElem`
    per link to the pending block, in order. -/
lemma foldl_terminateStep (ps : List (Nat × String)) :
    ∀ (inl : Option InlineCollector) (b : BlockCollector),
      ps.foldl terminateStep (Collector.mk inl (some b))
        = Collector.mk inl (some ⟨b.elements ++ ps.map linkBlockElem⟩) := by
  induction ps with
  | nil => intro inl b; simp
  | cons p ps ih =>
      intro inl b
      rw [List.foldl_cons]
      have hstep : terminateStep (Collector.mk inl (some b)) p
          = Collector.mk inl (some ⟨b.elements ++ [linkBlockElem p]⟩) := by
        simp [terminateStep, Collector._add_block, BlockCollector.iadd,
          BlockCollector.ofContent, BlockCollector.append, BlockCollector.empty,
          BlockCollector.nest, InlineCollector.iadd, InlineCollector.ofText,
          InlineCollector.apply_marker, addMarker, linkBlockElem]
      rw [hstep, ih]
      simp

/-- C2: flushing a non-empty registry emits exactly `1 + N` blocks — one
    blank block, then one block per link in assignment order whose content
    is the plain run `"[idx] "` followed by the target run marked `"l"` —
    and resets the registry; flushing an empty registry emits zero blocks,
    so a second flush after a non-empty one emits zero blocks. -/
theorem C2_terminate_emits_reference_blocks :
    ∀ (l : String) (ls : List String),
      ((ExcelRenderer.terminate (l :: ls)).1.block
          = some ⟨⟨⟨[⟨"", []⟩]⟩, []⟩ ::
              (List.enumFrom 1 (l :: ls)).map (fun p =>
                ⟨⟨[⟨"[" ++ toString p.1 ++ "] ", []⟩, ⟨p.2, ["l"]⟩]⟩, ["link"]⟩)⟩)
        ∧ (((ExcelRenderer.terminate (l :: ls)).1.block.map
              fun b => b.elements.length) = some (1 + (l :: ls).length))
        ∧ ((ExcelRenderer.terminate (l :: ls)).1.inline = none)
        ∧ ((ExcelRenderer.terminate (l :: ls)).2 = [])
        ∧ (ExcelRenderer.terminate [] = (Collector.mk none none, []))
        ∧ ExcelRenderer.terminate ((ExcelRenderer.terminate (l :: ls)).2)
            = (Collector.mk none none, []) := by
  intro l ls
  have hc0 : Collector.empty._add_block
      (BlockCollector.ofContent (InlineCollector.ofText ("")))
      = Collector.mk none (some ⟨[⟨⟨[⟨"", []⟩]⟩, []⟩]⟩) := by
    simp [Collector.empty, Collector._add_block, BlockCollector.ofContent,
      BlockCollector.empty, BlockCollector.append, BlockCollector.iadd,
      InlineCollector.ofText]
  have hterm : ExcelRenderer.terminate (l :: ls)
      = (Collector.mk none
          (some ⟨⟨⟨[⟨"", []⟩]⟩, []⟩ :: (List.enumFrom 1 (l :: ls)).map linkBlockElem⟩),
         []) := by
    rw [ExcelRenderer.terminate, if_pos (by simp)]
    rw [hc0, foldl_terminateStep]
    simp
  have hempty : ExcelRenderer.terminate [] = (Collector.mk none none, []) := by
    rw [ExcelRenderer.terminate, if_neg (by simp)]
    rfl
  refine ⟨?_, ?_, ?_, ?_, hempty, ?_⟩
  · rw [hterm]; simp [linkBlockElem]
  · rw [hterm]
    simp [Nat.add_comm]
  · rw [hterm]
  · rw [hterm]
  · rw [hterm]
    exact hempty

/-- None of the indent-bearing tags is a heading tag. -/
lemma FONTS_eq_none_of_indent_tag (s : String)
    (h : s = "list" ∨ s = "link" ∨ s = "quote") : FONTS s = none := by
  rcases h with rfl | rfl | rfl <;> rfl

/-- The alignment component of one `create_style` loop iteration: the three
    indent-bearing tags add 2 to the current indent (starting from the
    default 0), every other tag leaves the alignment untouched. -/
lemma styleStep_align (st : Option XFont × Option XAlignment × Option XPatternFill)
    (s : String) :
    (styleStep st s).2.1
      = if s = "list" ∨ s = "link" ∨ s = "quote"
        then some ⟨(st.2.1.getD ⟨0⟩).indent + 2⟩ else st.2.1 := by
  rcases hF : FONTS s with _ | f
  · by_cases h1 : s = "list" ∨ s = "link"
    · have : s = "list" ∨ s = "link" ∨ s = "quote" := by tauto
      simp [styleStep, hF, h1, this]
    · by_cases h2 : s = "quote"
      · subst h2
        simp [styleStep, show FONTS ("quote") = none from rfl]
      · have : ¬(s = "list" ∨ s = "link" ∨ s = "quote") := by tauto
        simp [styleStep, hF, h1, h2, this]
  · have hno : ¬(s = "list" ∨ s = "link" ∨ s = "quote") := by
      intro h
      rw [FONTS_eq_none_of_indent_tag s h] at hF
      cases hF
    simp [styleStep, hF, hno]

/-- The fill component of one `create_style` loop iteration: only the
    `"quote"` tag touches the fill, setting `FILL_QUOTE` when none is set
    yet. -/
lemma styleStep_fill (st : Option XFont × Option XAlignment × Option XPatternFill)
    (s : String) :
    (styleStep st s).2.2
      = if s = "quote" then some (st.2.2.getD FILL_QUOTE) else st.2.2 := by
  rcases hF : FONTS s with _ | f
  · by_cases h1 : s = "list" ∨ s = "link"
    · have h2 : s ≠ "quote" := by
        rcases h1 with rfl | rfl <;> decide
      simp [styleStep, hF, h1, h2]
    · by_cases h2 : s = "quote"
      · subst h2
        simp [styleStep, show FONTS ("quote") = none from rfl]
      · simp [styleStep, hF, h1, h2]
  · have h2 : s ≠ "quote" := by
      intro h
      rw [FONTS_eq_none_of_indent_tag s (Or.inr (Or.inr h))] at hF
      cases hF
    simp [styleStep, hF, h2]

/-- Folding the `create_style` loop: the resulting alignment is the initial
    one when no indent-bearing tag occurs, else the initial indent (default
    0) plus 2 per occurrence. -/
lemma foldl_styleStep_align :
    ∀ (styles : List String) (st : Option XFont × Option XAlignment × Option XPatternFill),
      (styles.foldl styleStep st).2.1
        = if styles.countP (fun s => decide (s = "list" ∨ s = "link" ∨ s = "quote")) = 0
          then st.2.1
          else some ⟨(st.2.1.getD ⟨0⟩).indent
            + 2 * styles.countP (fun s => decide (s = "list" ∨ s = "link" ∨ s = "quote"))⟩ := by
  intro styles
  induction styles with
  | nil => intro st; simp
  | cons s rest ih =>
      intro st
      rw [List.foldl_cons, ih]
      by_cases h : s = "list" ∨ s = "link" ∨ s = "quote"
      · have hstep := styleStep_align st s
        rw [if_pos h] at hstep
        have hcount : (s :: rest).countP (fun s => decide (s = "list" ∨ s = "link" ∨ s = "quote"))
            = rest.countP (fun s => decide (s = "list" ∨ s = "link" ∨ s = "quote")) + 1 := by
          simp [List.countP_cons, h]
        rw [hcount, hstep, Option.getD_some]
        dsimp only
        by_cases hk :
            rest.countP (fun s => decide (s = "list" ∨ s = "link" ∨ s = "quote")) = 0
        · rw [if_pos hk, if_neg (by omega), hk]
        · rw [if_neg hk, if_neg (by omega)]
          simp only [Option.some.injEq, XAlignment.mk.injEq]
          omega
      · have hstep := styleStep_align st s
        rw [if_neg h] at hstep
        have hcount : (s :: rest).countP (fun s => decide (s = "list" ∨ s = "link" ∨ s = "quote"))
            = rest.countP (fun s => decide (s = "list" ∨ s = "link" ∨ s = "quote")) := by
          simp [List.countP_cons, h]
        rw [hcount, hstep]

/-- Folding the `create_style` loop: the resulting fill is `FILL_QUOTE`
    (or the already-set initial fill) exactly when a `"quote"` tag occurs. -/
lemma foldl_styleStep_fill :
    ∀ (styles : List String) (st : Option XFont × Option XAlignment × Option XPatternFill),
      (styles.foldl styleStep st).2.2
        = if ("quote") ∈ styles then some (st.2.2.getD FILL_QUOTE) else st.2.2 := by
  intro styles
  induction styles with
  | nil => intro st; simp
  | cons s rest ih =>
      intro st
      rw [List.foldl_cons, ih]
      by_cases h : s = "quote"
      · subst h
        have hstep := styleStep_fill st ("quote")
        rw [if_pos rfl] at hstep
        rw [hstep]
        simp [List.mem_cons]
      · have hstep := styleStep_fill st s
        rw [if_neg h] at hstep
        rw [hstep]
        have hmem : ("quote" ∈ s :: rest) ↔ ("quote" ∈ rest) := by
          constructor
          · intro hm
            rcases List.mem_cons.mp hm with h1 | h1
            · exact absurd h1.symm h
            · exact h1
          · exact fun hm => List.mem_cons_of_mem s hm
        simp only [hmem]

/-- C9: for every style list, the resolved alignment is absent when no
    `list`, `link` or `quote` tag occurs, and otherwise indents by 2 per
    occurrence of those tags; the resolved fill is the solid quote fill
    exactly when at least one `quote` tag occurs. -/
theorem C9_indent_accumulates_fill_on_quote :
    ∀ styles : List String,
      ((create_style styles).2.1
          = if styles.countP (fun s => decide (s = "list" ∨ s = "link" ∨ s = "quote")) = 0
            then none
            else some ⟨2 * styles.countP
              (fun s => decide (s = "list" ∨ s = "link" ∨ s = "quote"))⟩)
        ∧ (create_style styles).2.2
          = if ("quote") ∈ styles then some FILL_QUOTE else none := by
  intro styles
  constructor
  · rw [create_style, foldl_styleStep_align]
    dsimp only [Option.getD_none]
    simp only [Nat.zero_add]
  · rw [create_style, foldl_styleStep_fill]
    dsimp only [Option.getD_none]

/-- The four block-level tags that `create_style` does not inspect. -/
lemma styleStep_untracked
    (st : Option XFont × Option XAlignment × Option XPatternFill) (t : String)
    (h : t ∈ (["paragraph", "code", "list_item", "hrule"] : List String)) :
    styleStep st t = st := by
  have h2 : t = "paragraph" ∨ t = "code" ∨ t = "list_item" ∨ t = "hrule" := by
    simpa using h
  rcases h2 with rfl | rfl | rfl | rfl <;> rfl

/-- Folding the `create_style` loop over a list of untracked tags leaves
    the state unchanged. -/
lemma foldl_styleStep_untracked :
    ∀ (styles : List String) (st : Option XFont × Option XAlignment × Option XPatternFill),
      (∀ t ∈ styles, t ∈ (["paragraph", "code", "list_item", "hrule"] : List String)) →
        styles.foldl styleStep st = st := by
  intro styles
  induction styles with
  | nil => intro st _; rfl
  | cons s rest ih =>
      intro st hall
      rw [List.foldl_cons, styleStep_untracked st s (hall s (List.mem_cons_self s rest))]
      exact ih st (fun t ht => hall t (List.mem_cons_of_mem s ht))

/-- C10: `create_style` is unchanged by inserting or removing the block
    tags `"paragraph"`, `"code"`, `"list_item"`, `"hrule"` anywhere in the
    style list, and a list of only such tags resolves to no font, no
    alignment and no fill. -/
theorem C10_block_tags_transparent :
    (∀ (pre post : List String) (t : String),
        t ∈ (["paragraph", "code", "list_item", "hrule"] : List String) →
          create_style (pre ++ t :: post) = create_style (pre ++ post))
      ∧ ∀ styles : List String,
          (∀ t ∈ styles, t ∈ (["paragraph", "code", "list_item", "hrule"] : List String)) →
            create_style styles
              = ((none, none, none) :
                  Option XFont × Option XAlignment × Option XPatternFill) := by
  constructor
  · intro pre post t ht
    rw [create_style, create_style, List.foldl_append, List.foldl_append,
      List.foldl_cons, styleStep_untracked _ t ht]
  · intro styles hall
    rw [create_style, foldl_styleStep_untracked styles _ hall]

/-- C10 witness: inserting `"paragraph"` between `"h1"` and `"quote"` does
    not change the resolved style, and `["code", "hrule"]` resolves to
    nothing. -/
theorem C10_block_tags_transparent_witness :
    (create_style (["h1"] ++ "paragraph" :: ["quote"])
        = create_style (["h1"] ++ ["quote"]))
      ∧ create_style ["code", "hrule"]
        = ((none, none, none) :
            Option XFont × Option XAlignment × Option XPatternFill) :=
  ⟨C10_block_tags_transparent.1 ["h1"] ["quote"] ("paragraph") (by decide),
   C10_block_tags_transparent.2 ["code", "hrule"] (by decide)⟩
